import Mathlib

/-!
# KeyFinder (go/chat/keyfinder.go)

A shallow embedding of `KeyFinderImpl`: the cache of resolved `NameInfo` values, the
dispatch over conversation membership types, and the three resolvers `Find`,
`FindForEncryption` and `FindForDecryption`.

Conventions of the embedding.

* A `*types.NameInfo` is a pointer: `none` is nil, `some a` is the address of an object of
  the heap.  The heap is part of the world, so the object a source returns is the object
  `Find` appends to and the object the cache refers to.  The `CryptKeys` map of an object
  is `none` when it is the nil map; a non-nil map is a total function into lists (a missing
  key reads as the empty slice, as in Go).  Slices are lists: the sharing of backing arrays
  by `append` is not modelled, nor is the sharing of one map by two objects.
* The cache `keys` is a function into `Option`: `none` is an absent key, `some p` an entry,
  whose pointer `p` may be nil.
* A Go pair `(value, error)` coming from a collaborator is an `Except`.  A resolver ends
  with a pointer, with an error, or with a run-time panic (`Outcome`).
* The collaborators that live in other files (`Lookup` of each name info source, `LoadTeam`,
  `teamToNameInfo`, `publicCryptKey`, the `String` method of the membership type) are the
  fields of `Env`.  They may be stateful: each threads the world, heap included.
* Every resolver returns, next to its outcome, the key finder and world after the call
  and the list of external calls it made, in order (`Ret.calls`).  The list is a ghost
  record used to count invocations, it does not influence the computation.
* The mutex only brackets the map read and the map write; the embedding is sequential.
* `k.Debug` log lines are not modelled.
-/

namespace KeyFinder

/-! ## Data model -/

/-- Go `error` values. -/
abbrev Error := String

/-- The type chat1.ConversationMembersType, a Go `int` enumeration. -/
abbrev ConversationMembersType := Int

/-- Modelled from the spec: the constants of chat1 (legacy filesystem type). -/
def ConversationMembersType_KBFS : ConversationMembersType := 0
/-- Modelled from the spec: the constants of chat1 (team). -/
def ConversationMembersType_TEAM : ConversationMembersType := 1
/-- Modelled from the spec: the constants of chat1 (implicit team, native). -/
def ConversationMembersType_IMPTEAMNATIVE : ConversationMembersType := 2
/-- Modelled from the spec: the constants of chat1 (implicit team, upgraded). -/
def ConversationMembersType_IMPTEAMUPGRADE : ConversationMembersType := 3

/-- The two visibilities of keybase1.TLFVisibility that the key finder produces. -/
inductive TLFVisibility where
  | PRIVATE
  | PUBLIC
  deriving DecidableEq, Repr

/-- The type chat1.TLFID, a byte string. -/
abbrev TLFID := List Nat

/-- The type keybase1.TeamID, a string. -/
abbrev TeamID := String

/-- A key entry of a `NameInfo` (generation and key material). -/
structure CryptKey where
  KeyGeneration : Int
  Key : List Nat
  deriving DecidableEq, Repr

/-- Modelled from the spec: a types.NameInfo object, the canonical name and the mapping
from membership type to an ordered sequence of key entries; `CryptKeys = none` is the nil
map of a zero-valued object. -/
structure NameInfo where
  CanonicalName : String
  CryptKeys : Option (ConversationMembersType → List CryptKey)

/-- A `*types.NameInfo`: nil, or the address of an object. -/
abbrev NameInfoPtr := Option Nat

/-- The objects behind the addresses. -/
abbrev Heap := Nat → NameInfo

/-- The world the collaborators act on: their own state and the heap of objects. -/
structure World (X : Type) where
  ext : X
  heap : Heap

/-- The caller's context: only its cancellation status is observable here. -/
structure Context where
  cancelled : Bool
  deriving DecidableEq, Repr

/-- The values of the interface types.NameInfoSource: the three constructors used by
`createNameInfoSource`, and any other implementation (test fakes), told apart by a tag. -/
inductive NameInfoSource where
  | NewKBFSNameInfoSource
  | NewTeamsNameInfoSource
  | NewImplicitTeamsNameInfoSource (lookupUpgraded : Bool)
  | other (tag : Nat)
  deriving DecidableEq, Repr

/-- The type keybase1.TeamApplication, a Go `int` enumeration. -/
abbrev TeamApplication := Int

/-- Modelled from the spec: the chat application tag of keybase1. -/
def TeamApplication_CHAT : TeamApplication := 2

/-- The type keybase1.TeamKBFSKeyRefresher. -/
structure TeamKBFSKeyRefresher where
  Generation : Int
  AppType : TeamApplication
  deriving DecidableEq, Repr

/-- The fields of keybase1.TeamRefreshers that the key finder assigns; a Go `var`
declaration starts from `TeamRefreshers.zero`. -/
structure TeamRefreshers where
  NeedKeyGeneration : Int
  NeedKBFSKeyGeneration : TeamKBFSKeyRefresher
  deriving DecidableEq, Repr

/-- The zero value of `TeamRefreshers`. -/
def TeamRefreshers.zero : TeamRefreshers := ⟨0, ⟨0, 0⟩⟩

/-- The fields of keybase1.LoadTeamArg that the key finder assigns. -/
structure LoadTeamArg where
  ID : TeamID
  Public : Bool
  Refreshers : TeamRefreshers
  StaleOK : Bool
  deriving DecidableEq, Repr

/-- An external call made by a resolver. -/
inductive ExtCall where
  | lookup (src : NameInfoSource) (ctx : Context) (name : String) (vis : TLFVisibility)
  | loadTeam (ctx : Context) (teamID : TLFID) (membersType : ConversationMembersType)
      (isPublic : Bool) (loadTeamArgOverride : Option (TeamID → LoadTeamArg))
  | teamToNameInfo (ctx : Context) (vis : TLFVisibility)

/-- Predicate on external calls: the call is a `Lookup` of a name info source. -/
def ExtCall.isLookup : ExtCall → Bool
  | .lookup _ _ _ _ => true
  | _ => false

/-- Predicate on external calls: the call is a `LoadTeam`. -/
def ExtCall.isLoadTeam : ExtCall → Bool
  | .loadTeam _ _ _ _ _ => true
  | _ => false

/-- The collaborators of the key finder that are defined outside keyfinder.go. -/
structure Env (W Team : Type) where
  /-- The `String` method of chat1.ConversationMembersType, used by the `%v` verb. -/
  membersTypeString : ConversationMembersType → String
  /-- The package variable `publicCryptKey`. -/
  publicCryptKey : CryptKey
  /-- The method `Lookup` of a name info source. -/
  Lookup : NameInfoSource → Context → String → TLFVisibility → World W →
    Except Error NameInfoPtr × World W
  /-- The function `LoadTeam` of package chat. -/
  LoadTeam : Context → TLFID → ConversationMembersType → Bool →
    Option (TeamID → LoadTeamArg) → World W → Except Error Team × World W
  /-- The function `teamToNameInfo` of package chat. -/
  teamToNameInfo : Context → Team → TLFVisibility → World W →
    Except Error NameInfoPtr × World W

/-- The struct `KeyFinderImpl`: the cache and the testing override. -/
structure KeyFinderImpl where
  keys : String → Option NameInfoPtr
  testingNameInfoSource : Option NameInfoSource

/-- How a resolver ends: with a pointer and a nil error, with an error and a nil pointer,
or with a run-time panic. -/
inductive Outcome where
  | ok (nameInfo : NameInfoPtr)
  | error (err : Error)
  | panic (msg : String)
  deriving DecidableEq, Repr

/-- The outcome of a resolver that returns the pair of a collaborator as it is. -/
def Outcome.ofExcept : Except Error NameInfoPtr → Outcome
  | .ok nameInfo => .ok nameInfo
  | .error err => .error err

/-- The result of a resolver: its outcome, the key finder and the world after the call,
and the external calls made, in order. -/
structure Ret (W : Type) where
  res : Outcome
  k : KeyFinderImpl
  w : World W
  calls : List ExtCall

/-! ## Operations -/

/-- `NewKeyFinder`: an empty cache and no override. -/
def NewKeyFinder : KeyFinderImpl := ⟨fun _ => none, none⟩

/-- The `%v` rendering of a Go `bool`. -/
def boolString (b : Bool) : String := if b then "true" else "false"

/-- `cacheKey`: `fmt.Sprintf("%s|%v|%v", name, membersType, public)`. -/
def cacheKey {W Team : Type} (env : Env W Team) (name : String)
    (membersType : ConversationMembersType) (isPublic : Bool) : String :=
  name ++ "|" ++ env.membersTypeString membersType ++ "|" ++ boolString isPublic

/-- `createNameInfoSource`: the override when installed, else the source of the type. -/
def createNameInfoSource (k : KeyFinderImpl) (membersType : ConversationMembersType) :
    NameInfoSource :=
  match k.testingNameInfoSource with
  | some src => src
  | none =>
    if membersType = ConversationMembersType_KBFS then
      NameInfoSource.NewKBFSNameInfoSource
    else if membersType = ConversationMembersType_TEAM then
      NameInfoSource.NewTeamsNameInfoSource
    else if membersType = ConversationMembersType_IMPTEAMNATIVE then
      NameInfoSource.NewImplicitTeamsNameInfoSource false
    else if membersType = ConversationMembersType_IMPTEAMUPGRADE then
      NameInfoSource.NewImplicitTeamsNameInfoSource true
    else
      NameInfoSource.NewKBFSNameInfoSource

/-- The visibility derived from the public flag. -/
def visibilityOf (isPublic : Bool) : TLFVisibility :=
  if isPublic then TLFVisibility.PUBLIC else TLFVisibility.PRIVATE

/-- The statement
`nameInfo.CryptKeys[membersType] = append(nameInfo.CryptKeys[membersType], key)`:
it dereferences the pointer, reads the sequence of the type, and assigns the extended
sequence into the map of the object, in place.  It panics on a nil pointer and on a nil
map; otherwise it gives the heap after the assignment. -/
def appendCryptKey (heap : Heap) (nameInfo : NameInfoPtr)
    (membersType : ConversationMembersType) (key : CryptKey) : Except String Heap :=
  match nameInfo with
  | none => .error "invalid memory address or nil pointer dereference"
  | some a =>
    match (heap a).CryptKeys with
    | none => .error "assignment to entry in nil map"
    | some m =>
      .ok (fun b =>
        if b = a then
          { CanonicalName := (heap a).CanonicalName
            CryptKeys := some (fun t => if t = membersType then m membersType ++ [key] else m t) }
        else heap b)

/-- The statement `k.keys[ckey] = nameInfo`. -/
def storeKey (k : KeyFinderImpl) (ckey : String) (nameInfo : NameInfoPtr) : KeyFinderImpl :=
  { k with keys := fun key => if key = ckey then some nameInfo else k.keys key }

/-- `SetNameInfoSourceOverride`. -/
def SetNameInfoSourceOverride (k : KeyFinderImpl) (ni : Option NameInfoSource) :
    KeyFinderImpl :=
  { k with testingNameInfoSource := ni }

/-- `Find`: the cache first, else the source of the membership type. -/
def Find {W Team : Type} (env : Env W Team) (k : KeyFinderImpl) (ctx : Context)
    (name : String) (membersType : ConversationMembersType) (isPublic : Bool)
    (w : World W) : Ret W :=
  let ckey := cacheKey env name membersType isPublic
  match k.keys ckey with
  | some existing => ⟨.ok existing, k, w, []⟩
  | none =>
    let vis := visibilityOf isPublic
    let nameSource := createNameInfoSource k membersType
    match env.Lookup nameSource ctx name vis w with
    | (.error err, w1) => ⟨.error err, k, w1, [.lookup nameSource ctx name vis]⟩
    | (.ok nameInfo, w1) =>
      if isPublic then
        match appendCryptKey w1.heap nameInfo membersType env.publicCryptKey with
        | .error msg => ⟨.panic msg, k, w1, [.lookup nameSource ctx name vis]⟩
        | .ok heap2 =>
          ⟨.ok nameInfo, storeKey k ckey nameInfo, ⟨w1.ext, heap2⟩,
            [.lookup nameSource ctx name vis]⟩
      else
        ⟨.ok nameInfo, storeKey k ckey nameInfo, w1, [.lookup nameSource ctx name vis]⟩

/-- The membership types of the team family. -/
def isTeamFamily (membersType : ConversationMembersType) : Bool :=
  membersType = ConversationMembersType_TEAM
    || membersType = ConversationMembersType_IMPTEAMNATIVE
    || membersType = ConversationMembersType_IMPTEAMUPGRADE

/-- The tail shared by the team branches: load the team, then convert it at the
visibility and return the pair of the conversion as it is. -/
def loadAndConvert {W Team : Type} (env : Env W Team) (k : KeyFinderImpl) (ctx : Context)
    (teamID : TLFID) (membersType : ConversationMembersType) (isPublic : Bool)
    (loadTeamArgOverride : Option (TeamID → LoadTeamArg)) (w : World W) : Ret W :=
  let loadCall := ExtCall.loadTeam ctx teamID membersType isPublic loadTeamArgOverride
  match env.LoadTeam ctx teamID membersType isPublic loadTeamArgOverride w with
  | (.error err, w1) => ⟨.error err, k, w1, [loadCall]⟩
  | (.ok team, w1) =>
    let vis := visibilityOf isPublic
    match env.teamToNameInfo ctx team vis w1 with
    | (r, w2) => ⟨Outcome.ofExcept r, k, w2, [loadCall, .teamToNameInfo ctx vis]⟩

/-- `FindForEncryption`. -/
def FindForEncryption {W Team : Type} (env : Env W Team) (k : KeyFinderImpl) (ctx : Context)
    (tlfName : String) (teamID : TLFID) (membersType : ConversationMembersType)
    (isPublic : Bool) (w : World W) : Ret W :=
  if isTeamFamily membersType then
    loadAndConvert env k ctx teamID membersType isPublic none w
  else
    Find env k ctx tlfName membersType isPublic w

/-- The refreshers `FindForDecryption` computes before the team load. -/
def decryptionRefreshers (isPublic : Bool) (keyGeneration : Int) (kbfsEncrypted : Bool) :
    TeamRefreshers :=
  let refreshers := TeamRefreshers.zero
  if !isPublic then
    if !kbfsEncrypted then
      { refreshers with NeedKeyGeneration := keyGeneration }
    else
      { refreshers with
        NeedKBFSKeyGeneration := ⟨keyGeneration, TeamApplication_CHAT⟩ }
  else
    refreshers

/-- The closure `FindForDecryption` passes to `LoadTeam`. -/
def decryptionLoadTeamArg (isPublic : Bool) (keyGeneration : Int) (kbfsEncrypted : Bool) :
    TeamID → LoadTeamArg :=
  fun teamID =>
    { ID := teamID
      Public := isPublic
      Refreshers := decryptionRefreshers isPublic keyGeneration kbfsEncrypted
      StaleOK := true }

/-- `FindForDecryption`. -/
def FindForDecryption {W Team : Type} (env : Env W Team) (k : KeyFinderImpl) (ctx : Context)
    (tlfName : String) (teamID : TLFID) (membersType : ConversationMembersType)
    (isPublic : Bool) (keyGeneration : Int) (kbfsEncrypted : Bool) (w : World W) : Ret W :=
  if isTeamFamily membersType then
    loadAndConvert env k ctx teamID membersType isPublic
      (some (decryptionLoadTeamArg isPublic keyGeneration kbfsEncrypted)) w
  else
    Find env k ctx tlfName membersType isPublic w

/-! ## Fake collaborators used to instantiate the theorems -/

/-- A rendering of membership types: the enumeration names, decimal digits otherwise. -/
def fakeMembersTypeString (e : ConversationMembersType) : String :=
  if e = ConversationMembersType_KBFS then "KBFS"
  else if e = ConversationMembersType_TEAM then "TEAM"
  else if e = ConversationMembersType_IMPTEAMNATIVE then "IMPTEAMNATIVE"
  else if e = ConversationMembersType_IMPTEAMUPGRADE then "IMPTEAMUPGRADE"
  else toString e

/-- A rendering of membership types: the enumeration names, and the empty string for
every value that is none of the four. -/
def namesOnlyMembersTypeString (e : ConversationMembersType) : String :=
  if e = ConversationMembersType_KBFS then "KBFS"
  else if e = ConversationMembersType_TEAM then "TEAM"
  else if e = ConversationMembersType_IMPTEAMNATIVE then "IMPTEAMNATIVE"
  else if e = ConversationMembersType_IMPTEAMUPGRADE then "IMPTEAMUPGRADE"
  else ""

/-- A key entry `k1` returned by the fake sources. -/
def fakeKey : CryptKey := ⟨1, [7]⟩

/-- The fixed key of public conversations in the fake environment. -/
def fakePublicKey : CryptKey := ⟨1, []⟩

/-- The key map `{TEAM: [k1]}`. -/
def fakeKeys : ConversationMembersType → List CryptKey :=
  fun t => if t = ConversationMembersType_TEAM then [fakeKey] else []

/-- The object `{keys: {TEAM: [k1]}}` of the fake sources, labelled by `label`. -/
def fakeNameInfo (label : String) : NameInfo := ⟨label, some fakeKeys⟩

/-- A zero-valued object but for its name: its key map is the nil map. -/
def bareNameInfo (label : String) : NameInfo := ⟨label, none⟩

/-- The world of the fake environments at the start: no call made, and zero-valued
objects everywhere. -/
def fakeWorld : World Nat := ⟨0, fun _ => ⟨"", none⟩⟩

/-- A call that allocates nothing: the counter of calls moves on. -/
def tick (w : World Nat) : World Nat := ⟨w.ext + 1, w.heap⟩

/-- A call that allocates `obj` at the next free address, which is the counter. -/
def alloc (w : World Nat) (obj : NameInfo) : World Nat :=
  ⟨w.ext + 1, fun a => if a = w.ext then obj else w.heap a⟩

/-- The lookup of the fake sources, which ignores the context: the empty name does not
resolve; the name `nil` resolves to a nil pointer; the name `bare` resolves to a fresh
object with a nil key map; any other name resolves to a fresh object `{TEAM: [k1]}`,
labelled `override` by an override source and `registry` by the per-type sources. -/
def fakeLookup (src : NameInfoSource) (name : String) (w : World Nat) :
    Except Error NameInfoPtr × World Nat :=
  if name = "" then (.error "no such name", tick w)
  else if name = "nil" then (.ok none, tick w)
  else if name = "bare" then (.ok (some w.ext), alloc w (bareNameInfo "bare"))
  else match src with
    | .other _ => (.ok (some w.ext), alloc w (fakeNameInfo "override"))
    | _ => (.ok (some w.ext), alloc w (fakeNameInfo "registry"))

/-- A fake environment whose world counts the external calls and allocates at the
counter; a team is the object it converts to. -/
def fakeEnv : Env Nat NameInfo where
  membersTypeString := fakeMembersTypeString
  publicCryptKey := fakePublicKey
  Lookup := fun src _ name _ w => fakeLookup src name w
  LoadTeam := fun _ _ _ _ _ w => (.ok (fakeNameInfo "team"), tick w)
  teamToNameInfo := fun _ team _ w => (.ok (some w.ext), alloc w team)

/-- The fake environment with the rendering that names the four recognized membership
types only. -/
def namesOnlyEnv : Env Nat NameInfo :=
  { fakeEnv with membersTypeString := namesOnlyMembersTypeString }

/-- A fake environment whose sources honour cancellation: a lookup under a cancelled
context fails. -/
def cancelAwareEnv : Env Nat NameInfo :=
  { fakeEnv with
    Lookup := fun src ctx name _ w =>
      if ctx.cancelled then (.error "context canceled", tick w)
      else fakeLookup src name w }

/-- The canonical name of the object a resolver returned, read in a heap. -/
def resultName (res : Outcome) (heap : Heap) : Option String :=
  match res with
  | .ok (some a) => some (heap a).CanonicalName
  | _ => none

/-- The key sequence of a membership type in the object a resolver returned, read in a
heap. -/
def resultKeys (res : Outcome) (heap : Heap) (membersType : ConversationMembersType) :
    Option (List CryptKey) :=
  match res with
  | .ok (some a) => (heap a).CryptKeys.map (fun m => m membersType)
  | _ => none

/-- The first call of the scenarios: `Find("team1", TEAM, false)` on a fresh key finder in
the fake environment. -/
def firstFind : Ret Nat :=
  Find fakeEnv NewKeyFinder ⟨false⟩ "team1" ConversationMembersType_TEAM false fakeWorld

/-- The key finder after `firstFind`, with the override `other 0` installed afterwards. -/
def overriddenAfterFind : KeyFinderImpl :=
  SetNameInfoSourceOverride firstFind.k (some (NameInfoSource.other 0))

/-! ## Auxiliary lemmas -/

/-- Splitting at the first occurrence of a separator is unique. -/
theorem split_first_unique {α : Type} (c : α) :
    ∀ (x x' y y' : List α), c ∉ x → c ∉ x' → x ++ c :: y = x' ++ c :: y' →
      x = x' ∧ y = y'
  | [], [], y, y', _, _, h => by simpa using h
  | [], b :: x', y, y', _, h', h => by
      simp only [List.nil_append, List.cons_append, List.cons.injEq] at h
      exact absurd (h.1 ▸ List.mem_cons_self _ _) h'
  | a :: x, [], y, y', h', _, h => by
      simp only [List.nil_append, List.cons_append, List.cons.injEq] at h
      exact absurd (h.1 ▸ List.mem_cons_self _ _) h'
  | a :: x, b :: x', y, y', hx, hx', h => by
      simp only [List.cons_append, List.cons.injEq] at h
      have ih := split_first_unique c x x' y y'
        (fun m => hx (List.mem_cons_of_mem _ m)) (fun m => hx' (List.mem_cons_of_mem _ m)) h.2
      exact ⟨by rw [h.1, ih.1], ih.2⟩

/-- Splitting at the last occurrence of a separator is unique. -/
theorem split_last_unique {α : Type} (c : α) (x x' y y' : List α) (hy : c ∉ y)
    (hy' : c ∉ y') (h : x ++ c :: y = x' ++ c :: y') : x = x' ∧ y = y' := by
  have hr : y.reverse ++ c :: x.reverse = y'.reverse ++ c :: x'.reverse := by
    have := congrArg List.reverse h
    simpa using this
  have := split_first_unique c y.reverse y'.reverse x.reverse x'.reverse
    (by simpa using hy) (by simpa using hy') hr
  exact ⟨List.reverse_injective this.2, List.reverse_injective this.1⟩

/-- The rendering of a boolean holds no separator. -/
theorem boolString_no_bar (b : Bool) : '|' ∉ (boolString b).data := by
  cases b <;> decide

/-- The rendering of booleans is injective. -/
theorem boolString_injective {b b' : Bool} (h : boolString b = boolString b') : b = b' := by
  cases b <;> cases b' <;> first | rfl | exact absurd h (by decide)

/-- The characters of a cache key. -/
theorem cacheKey_data {W Team : Type} (env : Env W Team) (name : String)
    (membersType : ConversationMembersType) (isPublic : Bool) :
    (cacheKey env name membersType isPublic).data =
      (name.data ++ '|' :: (env.membersTypeString membersType).data)
        ++ '|' :: (boolString isPublic).data := by
  simp [cacheKey, String.data_append]

/-- Two cache keys are equal exactly when the names, the renderings of the membership types
and the flags are, provided the renderings hold no separator. -/
theorem cacheKey_eq_iff {W Team : Type} (env : Env W Team) (n1 n2 : String)
    (t1 t2 : ConversationMembersType) (p1 p2 : Bool)
    (h1 : '|' ∉ (env.membersTypeString t1).data)
    (h2 : '|' ∉ (env.membersTypeString t2).data) :
    cacheKey env n1 t1 p1 = cacheKey env n2 t2 p2 ↔
      n1 = n2 ∧ env.membersTypeString t1 = env.membersTypeString t2 ∧ p1 = p2 := by
  constructor
  · intro h
    have hd := congrArg String.data h
    rw [cacheKey_data, cacheKey_data] at hd
    obtain ⟨hl, hb⟩ := split_last_unique '|' _ _ _ _
      (boolString_no_bar p1) (boolString_no_bar p2) hd
    obtain ⟨hn, ht⟩ := split_last_unique '|' _ _ _ _ h1 h2 hl
    exact ⟨String.ext hn, String.ext ht, boolString_injective (String.ext hb)⟩
  · rintro ⟨rfl, ht, rfl⟩
    simp [cacheKey, ht]

/-- A store under one key leaves the entries of the other keys as they were. -/
theorem storeKey_other (k : KeyFinderImpl) (ckey key : String) (nameInfo : NameInfoPtr)
    (h : key ≠ ckey) : (storeKey k ckey nameInfo).keys key = k.keys key := by
  simp [storeKey, h]

/-- A store under a key is read back under that key. -/
theorem storeKey_same (k : KeyFinderImpl) (ckey : String) (nameInfo : NameInfoPtr) :
    (storeKey k ckey nameInfo).keys ckey = some nameInfo := by
  simp [storeKey]

/-- The append panics on a nil map. -/
theorem appendCryptKey_nil_map (heap : Heap) (a : Nat)
    (membersType : ConversationMembersType) (key : CryptKey)
    (hm : (heap a).CryptKeys = none) :
    appendCryptKey heap (some a) membersType key =
      .error "assignment to entry in nil map" := by
  simp [appendCryptKey, hm]

/-- The append on an object with a map rewrites that object, and only it. -/
theorem appendCryptKey_ok (heap : Heap) (a : Nat) (membersType : ConversationMembersType)
    (key : CryptKey) (m : ConversationMembersType → List CryptKey)
    (hm : (heap a).CryptKeys = some m) :
    appendCryptKey heap (some a) membersType key =
      .ok (fun b =>
        if b = a then
          { CanonicalName := (heap a).CanonicalName
            CryptKeys := some (fun t => if t = membersType then m membersType ++ [key] else m t) }
        else heap b) := by
  simp [appendCryptKey, hm]

/-- On a cache hit `Find` returns the entry and does nothing else. -/
theorem Find_hit {W Team : Type} (env : Env W Team) (k : KeyFinderImpl) (ctx : Context)
    (name : String) (membersType : ConversationMembersType) (isPublic : Bool)
    (w : World W) (existing : NameInfoPtr)
    (hhit : k.keys (cacheKey env name membersType isPublic) = some existing) :
    Find env k ctx name membersType isPublic w = ⟨.ok existing, k, w, []⟩ := by
  simp [Find, hhit]

/-- On a cache miss with a failing lookup `Find` returns the error and keeps the key
finder. -/
theorem Find_miss_error {W Team : Type} (env : Env W Team) (k : KeyFinderImpl)
    (ctx : Context) (name : String) (membersType : ConversationMembersType)
    (isPublic : Bool) (w w1 : World W) (err : Error)
    (hmiss : k.keys (cacheKey env name membersType isPublic) = none)
    (hlookup : env.Lookup (createNameInfoSource k membersType) ctx name
      (visibilityOf isPublic) w = (.error err, w1)) :
    Find env k ctx name membersType isPublic w =
      ⟨.error err, k, w1,
        [.lookup (createNameInfoSource k membersType) ctx name (visibilityOf isPublic)]⟩ := by
  simp [Find, hmiss, hlookup]

/-- On a cache miss with a successful lookup, a private `Find` stores and returns the
pointer of the source and touches nothing else. -/
theorem Find_miss_private {W Team : Type} (env : Env W Team) (k : KeyFinderImpl)
    (ctx : Context) (name : String) (membersType : ConversationMembersType)
    (w w1 : World W) (nameInfo : NameInfoPtr)
    (hmiss : k.keys (cacheKey env name membersType false) = none)
    (hlookup : env.Lookup (createNameInfoSource k membersType) ctx name
      (visibilityOf false) w = (.ok nameInfo, w1)) :
    Find env k ctx name membersType false w =
      ⟨.ok nameInfo, storeKey k (cacheKey env name membersType false) nameInfo, w1,
        [.lookup (createNameInfoSource k membersType) ctx name (visibilityOf false)]⟩ := by
  simp [Find, hmiss, hlookup]

/-- On a cache miss with a successful lookup, a public `Find` whose append panics ends
with that panic, after the lookup and before any store. -/
theorem Find_miss_public_panic {W Team : Type} (env : Env W Team) (k : KeyFinderImpl)
    (ctx : Context) (name : String) (membersType : ConversationMembersType)
    (w w1 : World W) (nameInfo : NameInfoPtr) (msg : String)
    (hmiss : k.keys (cacheKey env name membersType true) = none)
    (hlookup : env.Lookup (createNameInfoSource k membersType) ctx name
      (visibilityOf true) w = (.ok nameInfo, w1))
    (happend : appendCryptKey w1.heap nameInfo membersType env.publicCryptKey =
      .error msg) :
    Find env k ctx name membersType true w =
      ⟨.panic msg, k, w1,
        [.lookup (createNameInfoSource k membersType) ctx name (visibilityOf true)]⟩ := by
  simp [Find, hmiss, hlookup, happend]

/-- On a cache miss with a successful lookup, a public `Find` whose append succeeds
stores and returns the pointer of the source, the heap being the one after the append. -/
theorem Find_miss_public_ok {W Team : Type} (env : Env W Team) (k : KeyFinderImpl)
    (ctx : Context) (name : String) (membersType : ConversationMembersType)
    (w w1 : World W) (nameInfo : NameInfoPtr) (heap2 : Heap)
    (hmiss : k.keys (cacheKey env name membersType true) = none)
    (hlookup : env.Lookup (createNameInfoSource k membersType) ctx name
      (visibilityOf true) w = (.ok nameInfo, w1))
    (happend : appendCryptKey w1.heap nameInfo membersType env.publicCryptKey =
      .ok heap2) :
    Find env k ctx name membersType true w =
      ⟨.ok nameInfo, storeKey k (cacheKey env name membersType true) nameInfo,
        ⟨w1.ext, heap2⟩,
        [.lookup (createNameInfoSource k membersType) ctx name (visibilityOf true)]⟩ := by
  simp [Find, hmiss, hlookup, happend]

/-- The team branch keeps the key finder. -/
theorem loadAndConvert_k {W Team : Type} (env : Env W Team) (k : KeyFinderImpl)
    (ctx : Context) (teamID : TLFID) (membersType : ConversationMembersType)
    (isPublic : Bool) (arg : Option (TeamID → LoadTeamArg)) (w : World W) :
    (loadAndConvert env k ctx teamID membersType isPublic arg w).k = k := by
  unfold loadAndConvert
  rcases h : env.LoadTeam ctx teamID membersType isPublic arg w with ⟨r | team, w1⟩ <;> rfl

/-- The team branch makes exactly one team load. -/
theorem loadAndConvert_loads {W Team : Type} (env : Env W Team) (k : KeyFinderImpl)
    (ctx : Context) (teamID : TLFID) (membersType : ConversationMembersType)
    (isPublic : Bool) (arg : Option (TeamID → LoadTeamArg)) (w : World W) :
    (loadAndConvert env k ctx teamID membersType isPublic arg w).calls.countP
      ExtCall.isLoadTeam = 1 := by
  unfold loadAndConvert
  rcases h : env.LoadTeam ctx teamID membersType isPublic arg w with ⟨r | team, w1⟩ <;> rfl

/-- The first external call of the team branch is the team load, with the given builder. -/
theorem loadAndConvert_head {W Team : Type} (env : Env W Team) (k : KeyFinderImpl)
    (ctx : Context) (teamID : TLFID) (membersType : ConversationMembersType)
    (isPublic : Bool) (arg : Option (TeamID → LoadTeamArg)) (w : World W) :
    (loadAndConvert env k ctx teamID membersType isPublic arg w).calls.head? =
      some (.loadTeam ctx teamID membersType isPublic arg) := by
  unfold loadAndConvert
  rcases h : env.LoadTeam ctx teamID membersType isPublic arg w with ⟨r | team, w1⟩ <;> rfl

/-- The team branch does not read the key finder. -/
theorem loadAndConvert_indep {W Team : Type} (env : Env W Team) (k k2 : KeyFinderImpl)
    (ctx : Context) (teamID : TLFID) (membersType : ConversationMembersType)
    (isPublic : Bool) (arg : Option (TeamID → LoadTeamArg)) (w : World W) :
    (loadAndConvert env k2 ctx teamID membersType isPublic arg w).res =
      (loadAndConvert env k ctx teamID membersType isPublic arg w).res ∧
    (loadAndConvert env k2 ctx teamID membersType isPublic arg w).w =
      (loadAndConvert env k ctx teamID membersType isPublic arg w).w ∧
    (loadAndConvert env k2 ctx teamID membersType isPublic arg w).calls =
      (loadAndConvert env k ctx teamID membersType isPublic arg w).calls := by
  unfold loadAndConvert
  rcases h : env.LoadTeam ctx teamID membersType isPublic arg w with ⟨r | team, w1⟩ <;>
    exact ⟨rfl, rfl, rfl⟩

/-- The result of the team branch: the error of the team load, else the conversion of
the loaded team at the visibility of the call. -/
theorem loadAndConvert_res {W Team : Type} (env : Env W Team) (k : KeyFinderImpl)
    (ctx : Context) (teamID : TLFID) (membersType : ConversationMembersType)
    (isPublic : Bool) (arg : Option (TeamID → LoadTeamArg)) (w : World W) :
    (loadAndConvert env k ctx teamID membersType isPublic arg w).res =
      match env.LoadTeam ctx teamID membersType isPublic arg w with
      | (.error err, _) => .error err
      | (.ok team, w1) =>
        Outcome.ofExcept (env.teamToNameInfo ctx team (visibilityOf isPublic) w1).1 := by
  unfold loadAndConvert
  rcases h : env.LoadTeam ctx teamID membersType isPublic arg w with ⟨r | team, w1⟩ <;> rfl

/-- The team-family test, spelled out. -/
theorem isTeamFamily_iff (membersType : ConversationMembersType) :
    isTeamFamily membersType = true ↔
      (membersType = ConversationMembersType_TEAM ∨
        membersType = ConversationMembersType_IMPTEAMNATIVE ∨
        membersType = ConversationMembersType_IMPTEAMUPGRADE) := by
  simp [isTeamFamily, or_assoc]

/-- `FindForEncryption` on a team-family type is the team branch with no builder. -/
theorem FindForEncryption_team {W Team : Type} (env : Env W Team) (k : KeyFinderImpl)
    (ctx : Context) (tlfName : String) (teamID : TLFID)
    (membersType : ConversationMembersType) (isPublic : Bool) (w : World W)
    (hteam : membersType = ConversationMembersType_TEAM ∨
      membersType = ConversationMembersType_IMPTEAMNATIVE ∨
      membersType = ConversationMembersType_IMPTEAMUPGRADE) :
    FindForEncryption env k ctx tlfName teamID membersType isPublic w =
      loadAndConvert env k ctx teamID membersType isPublic none w := by
  simp [FindForEncryption, (isTeamFamily_iff membersType).mpr hteam]

/-- `FindForDecryption` on a team-family type is the team branch with its builder. -/
theorem FindForDecryption_team {W Team : Type} (env : Env W Team) (k : KeyFinderImpl)
    (ctx : Context) (tlfName : String) (teamID : TLFID)
    (membersType : ConversationMembersType) (isPublic : Bool) (keyGeneration : Int)
    (kbfsEncrypted : Bool) (w : World W)
    (hteam : membersType = ConversationMembersType_TEAM ∨
      membersType = ConversationMembersType_IMPTEAMNATIVE ∨
      membersType = ConversationMembersType_IMPTEAMUPGRADE) :
    FindForDecryption env k ctx tlfName teamID membersType isPublic keyGeneration
        kbfsEncrypted w =
      loadAndConvert env k ctx teamID membersType isPublic
        (some (decryptionLoadTeamArg isPublic keyGeneration kbfsEncrypted)) w := by
  simp [FindForDecryption, (isTeamFamily_iff membersType).mpr hteam]

/-- Every external call of `Find` is the lookup of the source of the key finder, under the
context, name and visibility of the call. -/
theorem Find_calls {W Team : Type} (env : Env W Team) (k : KeyFinderImpl)
    (ctx : Context) (name : String) (membersType : ConversationMembersType)
    (isPublic : Bool) (w : World W) :
    ∀ c ∈ (Find env k ctx name membersType isPublic w).calls,
      c = .lookup (createNameInfoSource k membersType) ctx name (visibilityOf isPublic) := by
  rcases hk : k.keys (cacheKey env name membersType isPublic) with _ | existing
  · rcases hl : env.Lookup (createNameInfoSource k membersType) ctx name
      (visibilityOf isPublic) w with ⟨err | nameInfo, w1⟩
    · rw [Find_miss_error env k ctx name membersType isPublic w w1 err hk hl]
      simp
    · cases isPublic
      · rw [Find_miss_private env k ctx name membersType w w1 nameInfo hk hl]
        simp
      · rcases ha : appendCryptKey w1.heap nameInfo membersType env.publicCryptKey
          with msg | heap2
        · rw [Find_miss_public_panic env k ctx name membersType w w1 nameInfo msg hk hl ha]
          simp
        · rw [Find_miss_public_ok env k ctx name membersType w w1 nameInfo heap2 hk hl ha]
          simp
  · rw [Find_hit env k ctx name membersType isPublic w existing hk]
    simp

/-- `Find` makes no team load. -/
theorem Find_no_loadTeam {W Team : Type} (env : Env W Team) (k : KeyFinderImpl)
    (ctx : Context) (name : String) (membersType : ConversationMembersType)
    (isPublic : Bool) (w : World W) :
    ∀ c ∈ (Find env k ctx name membersType isPublic w).calls, c.isLoadTeam = false := by
  intro c hc
  rw [Find_calls env k ctx name membersType isPublic w c hc]
  rfl

/-! ## The claims -/

/-- C1, as stated, fails: the lookup of the source succeeds with an object whose key map
is nil, the public `Find` panics on the append and stores nothing, so the two calls do
not return name infos, and a second call (once the panic is recovered) invokes the lookup
again. -/
theorem Find_twice_two_lookups_on_nil_map :
    NewKeyFinder.keys (cacheKey fakeEnv "bare" ConversationMembersType_TEAM true) = none ∧
    fakeEnv.Lookup (createNameInfoSource NewKeyFinder ConversationMembersType_TEAM)
      ⟨false⟩ "bare" (visibilityOf true) fakeWorld =
        (.ok (some 0), alloc fakeWorld (bareNameInfo "bare")) ∧
    (Find fakeEnv NewKeyFinder ⟨false⟩ "bare" ConversationMembersType_TEAM true
      fakeWorld).res = .panic "assignment to entry in nil map" ∧
    (Find fakeEnv NewKeyFinder ⟨false⟩ "bare" ConversationMembersType_TEAM true
      fakeWorld).k.keys (cacheKey fakeEnv "bare" ConversationMembersType_TEAM true) = none ∧
    ((Find fakeEnv NewKeyFinder ⟨false⟩ "bare" ConversationMembersType_TEAM true
        fakeWorld).calls ++
      (Find fakeEnv
        (Find fakeEnv NewKeyFinder ⟨false⟩ "bare" ConversationMembersType_TEAM true
          fakeWorld).k ⟨false⟩ "bare" ConversationMembersType_TEAM true
        (Find fakeEnv NewKeyFinder ⟨false⟩ "bare" ConversationMembersType_TEAM true
          fakeWorld).w).calls).countP ExtCall.isLookup = 2 :=
  ⟨rfl, rfl, rfl, rfl, rfl⟩

/-- C1, amended: starting from a cache miss with a succeeding lookup whose result, when
the call is public, is a non-nil pointer to an object with a non-nil key map, two
sequential `Find` calls with the same arguments return the same pointer; the first call
stores it under the cache key, the second call is served from that entry, makes no
external call and changes neither the key finder nor the world (so the content read
through the pointer is the same); over both calls the lookup of the source is invoked
exactly once.  A private call needs no condition on the result. -/
theorem Find_twice_one_lookup {W Team : Type} (env : Env W Team) (k : KeyFinderImpl)
    (ctx : Context) (name : String) (membersType : ConversationMembersType)
    (isPublic : Bool) (w w1 : World W) (nameInfo : NameInfoPtr)
    (hmiss : k.keys (cacheKey env name membersType isPublic) = none)
    (hlookup : env.Lookup (createNameInfoSource k membersType) ctx name
      (visibilityOf isPublic) w = (.ok nameInfo, w1))
    (hwf : isPublic = true →
      ∃ (a : Nat) (m : ConversationMembersType → List CryptKey),
        nameInfo = some a ∧ (w1.heap a).CryptKeys = some m) :
    (Find env k ctx name membersType isPublic w).res = .ok nameInfo ∧
    (Find env k ctx name membersType isPublic w).k.keys
      (cacheKey env name membersType isPublic) = some nameInfo ∧
    (Find env k ctx name membersType isPublic w).w.ext = w1.ext ∧
    (Find env (Find env k ctx name membersType isPublic w).k ctx name membersType
      isPublic (Find env k ctx name membersType isPublic w).w).res = .ok nameInfo ∧
    (Find env (Find env k ctx name membersType isPublic w).k ctx name membersType
      isPublic (Find env k ctx name membersType isPublic w).w).calls = [] ∧
    (Find env (Find env k ctx name membersType isPublic w).k ctx name membersType
      isPublic (Find env k ctx name membersType isPublic w).w).k =
        (Find env k ctx name membersType isPublic w).k ∧
    (Find env (Find env k ctx name membersType isPublic w).k ctx name membersType
      isPublic (Find env k ctx name membersType isPublic w).w).w =
        (Find env k ctx name membersType isPublic w).w ∧
    (Find env k ctx name membersType isPublic w).calls ++
      (Find env (Find env k ctx name membersType isPublic w).k ctx name membersType
        isPublic (Find env k ctx name membersType isPublic w).w).calls =
      [.lookup (createNameInfoSource k membersType) ctx name (visibilityOf isPublic)] ∧
    ((Find env k ctx name membersType isPublic w).calls ++
      (Find env (Find env k ctx name membersType isPublic w).k ctx name membersType
        isPublic (Find env k ctx name membersType isPublic w).w).calls).countP
      ExtCall.isLookup = 1 := by
  cases isPublic
  · rw [Find_miss_private env k ctx name membersType w w1 nameInfo hmiss hlookup]
    refine ⟨rfl, storeKey_same _ _ _, rfl, ?_⟩
    rw [Find_hit env _ ctx name membersType false w1 _ (storeKey_same _ _ _)]
    exact ⟨rfl, rfl, rfl, rfl, rfl, rfl⟩
  · obtain ⟨a, m, rfl, hm⟩ := hwf rfl
    rw [Find_miss_public_ok env k ctx name membersType w w1 (some a) _ hmiss hlookup
      (appendCryptKey_ok w1.heap a membersType env.publicCryptKey m hm)]
    refine ⟨rfl, storeKey_same _ _ _, rfl, ?_⟩
    rw [Find_hit env _ ctx name membersType true _ _ (storeKey_same _ _ _)]
    exact ⟨rfl, rfl, rfl, rfl, rfl, rfl⟩

/-- C1, amended, on the scenario of the specification: `Find("team1", TEAM, false)` twice
on a fresh key finder; the entry is stored under `team1|TEAM|false`, both calls return
the object `{TEAM: [k1]}` and the fake world has counted one call. -/
theorem Find_twice_one_lookup_witness :
    NewKeyFinder.keys (cacheKey fakeEnv "team1" ConversationMembersType_TEAM false) = none ∧
    fakeEnv.Lookup (createNameInfoSource NewKeyFinder ConversationMembersType_TEAM)
      ⟨false⟩ "team1" (visibilityOf false) fakeWorld =
        (.ok (some 0), alloc fakeWorld (fakeNameInfo "registry")) ∧
    cacheKey fakeEnv "team1" ConversationMembersType_TEAM false = "team1|TEAM|false" ∧
    (Find fakeEnv NewKeyFinder ⟨false⟩ "team1" ConversationMembersType_TEAM false
      fakeWorld).res = .ok (some 0) ∧
    (Find fakeEnv
      (Find fakeEnv NewKeyFinder ⟨false⟩ "team1" ConversationMembersType_TEAM false
        fakeWorld).k ⟨false⟩ "team1" ConversationMembersType_TEAM false
      (Find fakeEnv NewKeyFinder ⟨false⟩ "team1" ConversationMembersType_TEAM false
        fakeWorld).w).res = .ok (some 0) ∧
    (Find fakeEnv
      (Find fakeEnv NewKeyFinder ⟨false⟩ "team1" ConversationMembersType_TEAM false
        fakeWorld).k ⟨false⟩ "team1" ConversationMembersType_TEAM false
      (Find fakeEnv NewKeyFinder ⟨false⟩ "team1" ConversationMembersType_TEAM false
        fakeWorld).w).w =
      (Find fakeEnv NewKeyFinder ⟨false⟩ "team1" ConversationMembersType_TEAM false
        fakeWorld).w ∧
    (Find fakeEnv NewKeyFinder ⟨false⟩ "team1" ConversationMembersType_TEAM false
      fakeWorld).w.ext = 1 :=
  have h := Find_twice_one_lookup fakeEnv NewKeyFinder ⟨false⟩ "team1"
    ConversationMembersType_TEAM false fakeWorld (alloc fakeWorld (fakeNameInfo "registry"))
    (some 0) rfl rfl (fun hp => absurd hp (by decide))
  ⟨rfl, rfl, by decide, h.1, h.2.2.2.1, h.2.2.2.2.2.2.1, h.2.2.1⟩

/-- C2, as stated, fails: the lookup of the source succeeds, with an object whose key map
is nil or with a nil pointer, and the public `Find` panics on the append instead of
returning a key sequence. -/
theorem Find_public_panics_on_ill_formed :
    fakeEnv.Lookup (createNameInfoSource NewKeyFinder ConversationMembersType_IMPTEAMNATIVE)
      ⟨false⟩ "bare" (visibilityOf true) fakeWorld =
        (.ok (some 0), alloc fakeWorld (bareNameInfo "bare")) ∧
    (Find fakeEnv NewKeyFinder ⟨false⟩ "bare" ConversationMembersType_IMPTEAMNATIVE true
      fakeWorld).res = .panic "assignment to entry in nil map" ∧
    resultKeys
      (Find fakeEnv NewKeyFinder ⟨false⟩ "bare" ConversationMembersType_IMPTEAMNATIVE true
        fakeWorld).res
      (Find fakeEnv NewKeyFinder ⟨false⟩ "bare" ConversationMembersType_IMPTEAMNATIVE true
        fakeWorld).w.heap ConversationMembersType_IMPTEAMNATIVE = none ∧
    fakeEnv.Lookup (createNameInfoSource NewKeyFinder ConversationMembersType_IMPTEAMNATIVE)
      ⟨false⟩ "nil" (visibilityOf true) fakeWorld = (.ok none, tick fakeWorld) ∧
    (Find fakeEnv NewKeyFinder ⟨false⟩ "nil" ConversationMembersType_IMPTEAMNATIVE true
      fakeWorld).res = .panic "invalid memory address or nil pointer dereference" :=
  ⟨rfl, rfl, rfl, rfl, rfl⟩

/-- C2, amended: on a cache miss whose lookup succeeds, a public `Find` that received a
non-nil pointer to an object with a non-nil key map returns that pointer and has appended
in place: the key sequence of the membership type of the call is the one the source
returned with exactly one `publicCryptKey` at the end, the sequences of all other types
and the canonical name are those the source returned, and no other object has changed; a
private `Find` returns the pointer of the source and leaves the world of the lookup as it
is. -/
theorem Find_public_appends_key {W Team : Type} (env : Env W Team) (k : KeyFinderImpl)
    (ctx : Context) (name : String) (membersType : ConversationMembersType)
    (isPublic : Bool) (w w1 : World W) (nameInfo : NameInfoPtr)
    (hmiss : k.keys (cacheKey env name membersType isPublic) = none)
    (hlookup : env.Lookup (createNameInfoSource k membersType) ctx name
      (visibilityOf isPublic) w = (.ok nameInfo, w1)) :
    (isPublic = true →
      ∀ (a : Nat) (m : ConversationMembersType → List CryptKey),
        nameInfo = some a → (w1.heap a).CryptKeys = some m →
        (Find env k ctx name membersType isPublic w).res = .ok (some a) ∧
        resultKeys (Find env k ctx name membersType isPublic w).res
          (Find env k ctx name membersType isPublic w).w.heap membersType =
            some (m membersType ++ [env.publicCryptKey]) ∧
        (∀ t : ConversationMembersType, t ≠ membersType →
          resultKeys (Find env k ctx name membersType isPublic w).res
            (Find env k ctx name membersType isPublic w).w.heap t = some (m t)) ∧
        ((Find env k ctx name membersType isPublic w).w.heap a).CanonicalName =
          (w1.heap a).CanonicalName ∧
        (∀ b : Nat, b ≠ a →
          (Find env k ctx name membersType isPublic w).w.heap b = w1.heap b) ∧
        (Find env k ctx name membersType isPublic w).w.ext = w1.ext) ∧
    (isPublic = false →
      (Find env k ctx name membersType isPublic w).res = .ok nameInfo ∧
      (Find env k ctx name membersType isPublic w).w = w1) := by
  constructor
  · intro hp a m ha hm
    subst hp
    subst ha
    rw [Find_miss_public_ok env k ctx name membersType w w1 (some a) _ hmiss hlookup
      (appendCryptKey_ok w1.heap a membersType env.publicCryptKey m hm)]
    refine ⟨rfl, by simp [resultKeys], ?_, by simp, ?_, rfl⟩
    · intro t ht
      simp [resultKeys, ht]
    · intro b hb
      simp [hb]
  · intro hp
    subst hp
    rw [Find_miss_private env k ctx name membersType w w1 nameInfo hmiss hlookup]
    exact ⟨rfl, rfl⟩

/-- C2, amended, on the scenario of the specification: `Find("pub1", TEAM, true)` against a
source returning `{keys: {TEAM: [k1]}}` yields `[k1, publicKey]` for TEAM. -/
theorem Find_public_appends_key_witness :
    NewKeyFinder.keys (cacheKey fakeEnv "pub1" ConversationMembersType_TEAM true) = none ∧
    fakeEnv.Lookup (createNameInfoSource NewKeyFinder ConversationMembersType_TEAM)
      ⟨false⟩ "pub1" (visibilityOf true) fakeWorld =
        (.ok (some 0), alloc fakeWorld (fakeNameInfo "registry")) ∧
    ((alloc fakeWorld (fakeNameInfo "registry")).heap 0).CryptKeys = some fakeKeys ∧
    (Find fakeEnv NewKeyFinder ⟨false⟩ "pub1" ConversationMembersType_TEAM true
      fakeWorld).res = .ok (some 0) ∧
    resultKeys
      (Find fakeEnv NewKeyFinder ⟨false⟩ "pub1" ConversationMembersType_TEAM true
        fakeWorld).res
      (Find fakeEnv NewKeyFinder ⟨false⟩ "pub1" ConversationMembersType_TEAM true
        fakeWorld).w.heap ConversationMembersType_TEAM = some [fakeKey, fakePublicKey] :=
  have h := (Find_public_appends_key fakeEnv NewKeyFinder ⟨false⟩ "pub1"
    ConversationMembersType_TEAM true fakeWorld (alloc fakeWorld (fakeNameInfo "registry"))
    (some 0) rfl rfl).1 rfl 0 fakeKeys rfl rfl
  ⟨rfl, rfl, rfl, h.1, h.2.1⟩

/-- C3: on a cache miss whose lookup fails, `Find` returns exactly the error of the
lookup, with no result, and the cache store (with the rest of the key finder) is the one
before the call. -/
theorem Find_lookup_error_keeps_cache {W Team : Type} (env : Env W Team)
    (k : KeyFinderImpl) (ctx : Context) (name : String)
    (membersType : ConversationMembersType) (isPublic : Bool) (w w1 : World W)
    (err : Error)
    (hmiss : k.keys (cacheKey env name membersType isPublic) = none)
    (hlookup : env.Lookup (createNameInfoSource k membersType) ctx name
      (visibilityOf isPublic) w = (.error err, w1)) :
    (Find env k ctx name membersType isPublic w).res = .error err ∧
    (Find env k ctx name membersType isPublic w).k.keys = k.keys ∧
    (Find env k ctx name membersType isPublic w).k = k := by
  rw [Find_miss_error env k ctx name membersType isPublic w w1 err hmiss hlookup]
  exact ⟨rfl, rfl, rfl⟩

/-- C3 on a fresh key finder: the empty name does not resolve in the fake environment. -/
theorem Find_lookup_error_keeps_cache_witness :
    NewKeyFinder.keys (cacheKey fakeEnv "" ConversationMembersType_TEAM false) = none ∧
    fakeEnv.Lookup (createNameInfoSource NewKeyFinder ConversationMembersType_TEAM)
      ⟨false⟩ "" (visibilityOf false) fakeWorld = (.error "no such name", tick fakeWorld) ∧
    (Find fakeEnv NewKeyFinder ⟨false⟩ "" ConversationMembersType_TEAM false fakeWorld).res =
      .error "no such name" ∧
    (Find fakeEnv NewKeyFinder ⟨false⟩ "" ConversationMembersType_TEAM false
      fakeWorld).k.keys = NewKeyFinder.keys ∧
    (Find fakeEnv NewKeyFinder ⟨false⟩ "" ConversationMembersType_TEAM false fakeWorld).k =
      NewKeyFinder :=
  ⟨rfl, rfl,
    Find_lookup_error_keeps_cache fakeEnv NewKeyFinder ⟨false⟩ ""
      ConversationMembersType_TEAM false fakeWorld (tick fakeWorld) "no such name" rfl rfl⟩

/-- C4: for a team-family membership type `FindForEncryption` leaves the key finder (its
cache store included) as it was; its result, world and external calls are the same
whatever the cache, the override and the name are; the result is the error of the team
load, called with no argument builder, else the conversion of the loaded team at the
visibility; and two consecutive calls perform two team loads. -/
theorem FindForEncryption_bypasses_cache {W Team : Type} (env : Env W Team)
    (k k2 : KeyFinderImpl) (ctx : Context) (tlfName tlfName2 : String) (teamID : TLFID)
    (membersType : ConversationMembersType) (isPublic : Bool) (w : World W)
    (hteam : membersType = ConversationMembersType_TEAM ∨
      membersType = ConversationMembersType_IMPTEAMNATIVE ∨
      membersType = ConversationMembersType_IMPTEAMUPGRADE) :
    (FindForEncryption env k ctx tlfName teamID membersType isPublic w).k = k ∧
    (FindForEncryption env k2 ctx tlfName2 teamID membersType isPublic w).res =
      (FindForEncryption env k ctx tlfName teamID membersType isPublic w).res ∧
    (FindForEncryption env k2 ctx tlfName2 teamID membersType isPublic w).w =
      (FindForEncryption env k ctx tlfName teamID membersType isPublic w).w ∧
    (FindForEncryption env k2 ctx tlfName2 teamID membersType isPublic w).calls =
      (FindForEncryption env k ctx tlfName teamID membersType isPublic w).calls ∧
    (FindForEncryption env k ctx tlfName teamID membersType isPublic w).res =
      (match env.LoadTeam ctx teamID membersType isPublic none w with
        | (.error err, _) => .error err
        | (.ok team, w1) =>
          Outcome.ofExcept (env.teamToNameInfo ctx team (visibilityOf isPublic) w1).1) ∧
    (FindForEncryption env k ctx tlfName teamID membersType isPublic w).calls.head? =
      some (.loadTeam ctx teamID membersType isPublic none) ∧
    ((FindForEncryption env k ctx tlfName teamID membersType isPublic w).calls ++
      (FindForEncryption env
        (FindForEncryption env k ctx tlfName teamID membersType isPublic w).k ctx tlfName
        teamID membersType isPublic
        (FindForEncryption env k ctx tlfName teamID membersType isPublic w).w).calls).countP
      ExtCall.isLoadTeam = 2 := by
  simp only [FindForEncryption_team env _ ctx _ teamID membersType isPublic _ hteam]
  obtain ⟨hr, hw, hc⟩ := loadAndConvert_indep env k k2 ctx teamID membersType isPublic none w
  refine ⟨loadAndConvert_k _ _ _ _ _ _ _ _, hr, hw, hc, loadAndConvert_res _ _ _ _ _ _ _ _,
    loadAndConvert_head _ _ _ _ _ _ _ _, ?_⟩
  rw [List.countP_append, loadAndConvert_loads, loadAndConvert_loads]

/-- C4 on a key finder whose cache holds an entry for the name: the encryption path for
TEAM still loads the team, twice over two calls. -/
theorem FindForEncryption_bypasses_cache_witness :
    (ConversationMembersType_TEAM = ConversationMembersType_TEAM ∨
      ConversationMembersType_TEAM = ConversationMembersType_IMPTEAMNATIVE ∨
      ConversationMembersType_TEAM = ConversationMembersType_IMPTEAMUPGRADE) ∧
    (FindForEncryption fakeEnv firstFind.k ⟨false⟩ "team1" [1]
      ConversationMembersType_TEAM false firstFind.w).k = firstFind.k ∧
    ((FindForEncryption fakeEnv firstFind.k ⟨false⟩ "team1" [1]
        ConversationMembersType_TEAM false firstFind.w).calls ++
      (FindForEncryption fakeEnv
        (FindForEncryption fakeEnv firstFind.k ⟨false⟩ "team1" [1]
          ConversationMembersType_TEAM false firstFind.w).k ⟨false⟩ "team1" [1]
        ConversationMembersType_TEAM false
        (FindForEncryption fakeEnv firstFind.k ⟨false⟩ "team1" [1]
          ConversationMembersType_TEAM false firstFind.w).w).calls).countP
      ExtCall.isLoadTeam = 2 :=
  have h := FindForEncryption_bypasses_cache fakeEnv firstFind.k NewKeyFinder ⟨false⟩
    "team1" "team1" [1] ConversationMembersType_TEAM false firstFind.w (Or.inl rfl)
  ⟨Or.inl rfl, h.1, h.2.2.2.2.2.2⟩

/-- C5: for a team-family membership type the first external call of `FindForDecryption`
is the team load with an argument builder, and for every team identifier the argument
built has that identifier, `StaleOK = true`, `Public = public`, and the refreshers:
private and not KBFS-encrypted, `NeedKeyGeneration = g` and the KBFS refresher zero;
private and KBFS-encrypted, `NeedKBFSKeyGeneration = (g, CHAT)` and `NeedKeyGeneration`
zero; public, both zero. -/
theorem FindForDecryption_loadTeamArg {W Team : Type} (env : Env W Team)
    (k : KeyFinderImpl) (ctx : Context) (tlfName : String) (teamID : TLFID)
    (membersType : ConversationMembersType) (isPublic : Bool) (keyGeneration : Int)
    (kbfsEncrypted : Bool) (w : World W)
    (hteam : membersType = ConversationMembersType_TEAM ∨
      membersType = ConversationMembersType_IMPTEAMNATIVE ∨
      membersType = ConversationMembersType_IMPTEAMUPGRADE) :
    ∃ build : TeamID → LoadTeamArg,
      (FindForDecryption env k ctx tlfName teamID membersType isPublic keyGeneration
        kbfsEncrypted w).calls.head? =
          some (.loadTeam ctx teamID membersType isPublic (some build)) ∧
      ∀ id : TeamID,
        (build id).ID = id ∧ (build id).StaleOK = true ∧ (build id).Public = isPublic ∧
        (isPublic = false → kbfsEncrypted = false →
          (build id).Refreshers = ⟨keyGeneration, ⟨0, 0⟩⟩) ∧
        (isPublic = false → kbfsEncrypted = true →
          (build id).Refreshers = ⟨0, ⟨keyGeneration, TeamApplication_CHAT⟩⟩) ∧
        (isPublic = true → (build id).Refreshers = ⟨0, ⟨0, 0⟩⟩) := by
  refine ⟨decryptionLoadTeamArg isPublic keyGeneration kbfsEncrypted, ?_, ?_⟩
  · rw [FindForDecryption_team env k ctx tlfName teamID membersType isPublic keyGeneration
      kbfsEncrypted w hteam]
    exact loadAndConvert_head _ _ _ _ _ _ _ _
  · intro id
    refine ⟨rfl, rfl, rfl, ?_, ?_, ?_⟩
    · rintro rfl rfl
      rfl
    · rintro rfl rfl
      rfl
    · rintro rfl
      rfl

/-- C5 for a private, KBFS-encrypted message of generation 5 in an upgraded implicit
team. -/
theorem FindForDecryption_loadTeamArg_witness :
    (ConversationMembersType_IMPTEAMUPGRADE = ConversationMembersType_TEAM ∨
      ConversationMembersType_IMPTEAMUPGRADE = ConversationMembersType_IMPTEAMNATIVE ∨
      ConversationMembersType_IMPTEAMUPGRADE = ConversationMembersType_IMPTEAMUPGRADE) ∧
    ∃ build : TeamID → LoadTeamArg,
      (FindForDecryption fakeEnv NewKeyFinder ⟨false⟩ "alice,bob" [1]
        ConversationMembersType_IMPTEAMUPGRADE false 5 true fakeWorld).calls.head? =
          some (.loadTeam ⟨false⟩ [1] ConversationMembersType_IMPTEAMUPGRADE false
            (some build)) ∧
      (build "t1").StaleOK = true ∧
      (build "t1").Refreshers = ⟨0, ⟨5, TeamApplication_CHAT⟩⟩ :=
  ⟨Or.inr (Or.inr rfl),
    (FindForDecryption_loadTeamArg fakeEnv NewKeyFinder ⟨false⟩ "alice,bob" [1]
      ConversationMembersType_IMPTEAMUPGRADE false 5 true fakeWorld
      (Or.inr (Or.inr rfl))).elim
      fun build hb => ⟨build, hb.1, (hb.2 "t1").2.1, (hb.2 "t1").2.2.2.2.1 rfl rfl⟩⟩

/-- C6, as stated, fails: the entry cached by a `Find` served from the per-type source is
returned by the same `Find` after an override was installed; the lookup of the override
is not invoked and its answer is not the result. -/
theorem Find_override_ignored_on_hit :
    overriddenAfterFind.testingNameInfoSource = some (NameInfoSource.other 0) ∧
    (Find fakeEnv overriddenAfterFind ⟨false⟩ "team1" ConversationMembersType_TEAM
      false firstFind.w).calls = [] ∧
    resultName
      (Find fakeEnv overriddenAfterFind ⟨false⟩ "team1" ConversationMembersType_TEAM
        false firstFind.w).res
      (Find fakeEnv overriddenAfterFind ⟨false⟩ "team1" ConversationMembersType_TEAM
        false firstFind.w).w.heap = some "registry" ∧
    resultName
      (Outcome.ofExcept (fakeEnv.Lookup (NameInfoSource.other 0) ⟨false⟩ "team1"
        (visibilityOf false) firstFind.w).1)
      (fakeEnv.Lookup (NameInfoSource.other 0) ⟨false⟩ "team1"
        (visibilityOf false) firstFind.w).2.heap = some "override" ∧
    (Find fakeEnv overriddenAfterFind ⟨false⟩ "team1" ConversationMembersType_TEAM
      false firstFind.w).res ≠
      Outcome.ofExcept (fakeEnv.Lookup (NameInfoSource.other 0) ⟨false⟩ "team1"
        (visibilityOf false) firstFind.w).1 := by
  have hl : (Find fakeEnv overriddenAfterFind ⟨false⟩ "team1"
      ConversationMembersType_TEAM false firstFind.w).res = .ok (some 0) := rfl
  have hr : Outcome.ofExcept (fakeEnv.Lookup (NameInfoSource.other 0) ⟨false⟩ "team1"
      (visibilityOf false) firstFind.w).1 = .ok (some 1) := rfl
  refine ⟨rfl, rfl, rfl, rfl, ?_⟩
  rw [hl, hr]
  decide

/-- C6, amended: with an override `src` installed, a `Find` that misses the cache makes
exactly one external call, the lookup of `src`, for every name, membership type and
public flag, and ends as that lookup and the append decide: with the error of the
lookup, with the pointer it returned (after the append in place of the public key when
public), or with the panic of that append on a nil pointer or nil key map; a `Find` that
hits the cache returns the entry and consults no source. -/
theorem Find_override_on_miss {W Team : Type} (env : Env W Team) (k : KeyFinderImpl)
    (src : NameInfoSource) (ctx : Context) (name : String)
    (membersType : ConversationMembersType) (isPublic : Bool) (w : World W) :
    (k.keys (cacheKey env name membersType isPublic) = none →
      (Find env (SetNameInfoSourceOverride k (some src)) ctx name membersType isPublic
        w).calls = [.lookup src ctx name (visibilityOf isPublic)] ∧
      (Find env (SetNameInfoSourceOverride k (some src)) ctx name membersType isPublic
        w).res =
        (match env.Lookup src ctx name (visibilityOf isPublic) w with
          | (.error err, _) => .error err
          | (.ok nameInfo, w1) =>
            if isPublic then
              match appendCryptKey w1.heap nameInfo membersType env.publicCryptKey with
              | .error msg => .panic msg
              | .ok _ => .ok nameInfo
            else .ok nameInfo) ∧
      (Find env (SetNameInfoSourceOverride k (some src)) ctx name membersType isPublic
        w).w =
        (match env.Lookup src ctx name (visibilityOf isPublic) w with
          | (.error _, w1) => w1
          | (.ok nameInfo, w1) =>
            if isPublic then
              match appendCryptKey w1.heap nameInfo membersType env.publicCryptKey with
              | .error _ => w1
              | .ok heap2 => ⟨w1.ext, heap2⟩
            else w1)) ∧
    (∀ existing : NameInfoPtr,
      k.keys (cacheKey env name membersType isPublic) = some existing →
      (Find env (SetNameInfoSourceOverride k (some src)) ctx name membersType isPublic
        w).calls = [] ∧
      (Find env (SetNameInfoSourceOverride k (some src)) ctx name membersType isPublic
        w).res = .ok existing) := by
  constructor
  · intro hmiss
    have hmiss2 : (SetNameInfoSourceOverride k (some src)).keys
        (cacheKey env name membersType isPublic) = none := hmiss
    have hsrc : createNameInfoSource (SetNameInfoSourceOverride k (some src)) membersType
        = src := rfl
    rcases hl : env.Lookup src ctx name (visibilityOf isPublic) w with ⟨err | nameInfo, w1⟩
    · rw [Find_miss_error env _ ctx name membersType isPublic w w1 err hmiss2
        (by rw [hsrc]; exact hl), hsrc]
      exact ⟨rfl, rfl, rfl⟩
    · cases isPublic
      · rw [Find_miss_private env _ ctx name membersType w w1 nameInfo hmiss2
          (by rw [hsrc]; exact hl), hsrc]
        exact ⟨rfl, rfl, rfl⟩
      · rcases ha : appendCryptKey w1.heap nameInfo membersType env.publicCryptKey
          with msg | heap2
        · rw [Find_miss_public_panic env _ ctx name membersType w w1 nameInfo msg hmiss2
            (by rw [hsrc]; exact hl) ha, hsrc]
          simp [ha]
        · rw [Find_miss_public_ok env _ ctx name membersType w w1 nameInfo heap2 hmiss2
            (by rw [hsrc]; exact hl) ha, hsrc]
          simp [ha]
  · intro existing hhit
    rw [Find_hit env (SetNameInfoSourceOverride k (some src)) ctx name membersType isPublic
      w existing hhit]
    exact ⟨rfl, rfl⟩

/-- C6, amended, on a fresh key finder (a miss, served by the override) and on the key
finder that cached `team1` before the override was installed (a hit). -/
theorem Find_override_on_miss_witness :
    (NewKeyFinder.keys (cacheKey fakeEnv "team1" ConversationMembersType_TEAM false) = none ∧
      (Find fakeEnv (SetNameInfoSourceOverride NewKeyFinder (some (NameInfoSource.other 0)))
        ⟨false⟩ "team1" ConversationMembersType_TEAM false fakeWorld).calls =
        [.lookup (NameInfoSource.other 0) ⟨false⟩ "team1" (visibilityOf false)]) ∧
    (firstFind.k.keys (cacheKey fakeEnv "team1" ConversationMembersType_TEAM false) =
        some (some 0) ∧
      (Find fakeEnv (SetNameInfoSourceOverride firstFind.k (some (NameInfoSource.other 0)))
        ⟨false⟩ "team1" ConversationMembersType_TEAM false firstFind.w).res =
        .ok (some 0)) :=
  ⟨⟨rfl, ((Find_override_on_miss fakeEnv NewKeyFinder (NameInfoSource.other 0) ⟨false⟩
      "team1" ConversationMembersType_TEAM false fakeWorld).1 rfl).1⟩,
    ⟨rfl, ((Find_override_on_miss fakeEnv firstFind.k (NameInfoSource.other 0) ⟨false⟩
      "team1" ConversationMembersType_TEAM false firstFind.w).2 (some 0) rfl).2⟩⟩

/-- C7: for a membership type outside the team family, `FindForEncryption` and
`FindForDecryption` are `Find` on the name: same result or error, same key finder and
world afterwards, same external calls, whatever the team identifier, the key generation
and the KBFS flag are; and no team load is made. -/
theorem FindFor_legacy_delegates {W Team : Type} (env : Env W Team) (k : KeyFinderImpl)
    (ctx : Context) (tlfName : String) (teamID : TLFID)
    (membersType : ConversationMembersType) (isPublic : Bool) (keyGeneration : Int)
    (kbfsEncrypted : Bool) (w : World W)
    (hlegacy : membersType ≠ ConversationMembersType_TEAM ∧
      membersType ≠ ConversationMembersType_IMPTEAMNATIVE ∧
      membersType ≠ ConversationMembersType_IMPTEAMUPGRADE) :
    FindForEncryption env k ctx tlfName teamID membersType isPublic w =
      Find env k ctx tlfName membersType isPublic w ∧
    FindForDecryption env k ctx tlfName teamID membersType isPublic keyGeneration
      kbfsEncrypted w = Find env k ctx tlfName membersType isPublic w ∧
    (∀ c ∈ (FindForEncryption env k ctx tlfName teamID membersType isPublic w).calls,
      c.isLoadTeam = false) ∧
    (∀ c ∈ (FindForDecryption env k ctx tlfName teamID membersType isPublic keyGeneration
      kbfsEncrypted w).calls, c.isLoadTeam = false) := by
  have hfam : isTeamFamily membersType = false := by
    rw [← Bool.not_eq_true, isTeamFamily_iff]
    rintro (h | h | h)
    · exact hlegacy.1 h
    · exact hlegacy.2.1 h
    · exact hlegacy.2.2 h
  have he : FindForEncryption env k ctx tlfName teamID membersType isPublic w =
      Find env k ctx tlfName membersType isPublic w := by
    simp [FindForEncryption, hfam]
  have hd : FindForDecryption env k ctx tlfName teamID membersType isPublic keyGeneration
      kbfsEncrypted w = Find env k ctx tlfName membersType isPublic w := by
    simp [FindForDecryption, hfam]
  refine ⟨he, hd, ?_, ?_⟩
  · rw [he]
    exact Find_no_loadTeam env k ctx tlfName membersType isPublic w
  · rw [hd]
    exact Find_no_loadTeam env k ctx tlfName membersType isPublic w

/-- C7 for the legacy KBFS type. -/
theorem FindFor_legacy_delegates_witness :
    (ConversationMembersType_KBFS ≠ ConversationMembersType_TEAM ∧
      ConversationMembersType_KBFS ≠ ConversationMembersType_IMPTEAMNATIVE ∧
      ConversationMembersType_KBFS ≠ ConversationMembersType_IMPTEAMUPGRADE) ∧
    FindForEncryption fakeEnv NewKeyFinder ⟨false⟩ "alice,bob" [1]
      ConversationMembersType_KBFS false fakeWorld =
        Find fakeEnv NewKeyFinder ⟨false⟩ "alice,bob" ConversationMembersType_KBFS false
          fakeWorld ∧
    FindForDecryption fakeEnv NewKeyFinder ⟨false⟩ "alice,bob" [1]
      ConversationMembersType_KBFS false 5 true fakeWorld =
        Find fakeEnv NewKeyFinder ⟨false⟩ "alice,bob" ConversationMembersType_KBFS false
          fakeWorld :=
  have h := FindFor_legacy_delegates fakeEnv NewKeyFinder ⟨false⟩ "alice,bob" [1]
    ConversationMembersType_KBFS false 5 true fakeWorld (by decide)
  ⟨by decide, h.1, h.2.1⟩

/-- C8, as stated, fails: `Find` never inspects the context; under a cancelled context
and a source that answers all the same, the cache of a fresh key finder gains the entry
`team1|TEAM|false`. -/
theorem Find_cancelled_context_writes_cache :
    (Context.mk true).cancelled = true ∧
    (NewKeyFinder.keys "team1|TEAM|false").isSome = false ∧
    ((Find fakeEnv NewKeyFinder (Context.mk true) "team1" ConversationMembersType_TEAM
      false fakeWorld).k.keys "team1|TEAM|false").isSome = true ∧
    (Find fakeEnv NewKeyFinder (Context.mk true) "team1" ConversationMembersType_TEAM
      false fakeWorld).k.keys ≠ NewKeyFinder.keys := by
  have hs : ((Find fakeEnv NewKeyFinder (Context.mk true) "team1"
      ConversationMembersType_TEAM false fakeWorld).k.keys "team1|TEAM|false").isSome
        = true := by
    decide
  refine ⟨rfl, rfl, hs, fun h => ?_⟩
  rw [h] at hs
  exact absurd hs (by decide)

/-- C8, amended: `Find` hands the context of the caller unchanged to the lookup of the
source and does not inspect it itself; when the sources honour cancellation, that is
their lookup fails under a cancelled context, a `Find` under a cancelled context leaves
the key finder, its cache store included, as it was. -/
theorem Find_cancelled_keeps_cache {W Team : Type} (env : Env W Team) (k : KeyFinderImpl)
    (ctx : Context) (name : String) (membersType : ConversationMembersType)
    (isPublic : Bool) (w : World W)
    (hcancelled : ctx.cancelled = true)
    (hhonour : ∀ c : Context, c.cancelled = true →
      ∀ (src : NameInfoSource) (n : String) (vis : TLFVisibility) (w0 : World W),
        ∃ (err : Error) (w1 : World W), env.Lookup src c n vis w0 = (.error err, w1)) :
    (Find env k ctx name membersType isPublic w).k = k ∧
    (Find env k ctx name membersType isPublic w).k.keys = k.keys ∧
    (∀ c ∈ (Find env k ctx name membersType isPublic w).calls,
      c = .lookup (createNameInfoSource k membersType) ctx name (visibilityOf isPublic)) := by
  rcases hk : k.keys (cacheKey env name membersType isPublic) with _ | existing
  · obtain ⟨err, w1, hl⟩ := hhonour ctx hcancelled (createNameInfoSource k membersType)
      name (visibilityOf isPublic) w
    rw [Find_miss_error env k ctx name membersType isPublic w w1 err hk hl]
    exact ⟨rfl, rfl, by simp⟩
  · rw [Find_hit env k ctx name membersType isPublic w existing hk]
    exact ⟨rfl, rfl, by simp⟩

/-- C8, amended, in the environment whose sources honour cancellation. -/
theorem Find_cancelled_keeps_cache_witness :
    (Context.mk true).cancelled = true ∧
    (Find cancelAwareEnv NewKeyFinder (Context.mk true) "team1"
      ConversationMembersType_TEAM false fakeWorld).k.keys = NewKeyFinder.keys :=
  ⟨rfl,
    (Find_cancelled_keeps_cache cancelAwareEnv NewKeyFinder (Context.mk true) "team1"
      ConversationMembersType_TEAM false fakeWorld rfl
      (fun c hc _ _ _ w0 => ⟨"context canceled", tick w0, by
        simp [cancelAwareEnv, hc]⟩)).2.1⟩

/-- C9, as stated, fails for a `String` method that renders the four recognized
membership types by name and every other value by the empty string: the unrecognized
types 7 and 8 get the same cache key, and a `Find` for type 8 is served, with no lookup,
from the entry that a `Find` for type 7 stored. -/
theorem cacheKey_collides_on_unrecognized :
    cacheKey namesOnlyEnv "x" 7 false = cacheKey namesOnlyEnv "x" 8 false ∧
    (("x", 7, false) : String × ConversationMembersType × Bool) ≠ ("x", 8, false) ∧
    (Find namesOnlyEnv NewKeyFinder ⟨false⟩ "x" 7 false fakeWorld).calls.countP
      ExtCall.isLookup = 1 ∧
    (Find namesOnlyEnv (Find namesOnlyEnv NewKeyFinder ⟨false⟩ "x" 7 false fakeWorld).k
      ⟨false⟩ "x" 8 false
      (Find namesOnlyEnv NewKeyFinder ⟨false⟩ "x" 7 false fakeWorld).w).calls = [] ∧
    (Find namesOnlyEnv (Find namesOnlyEnv NewKeyFinder ⟨false⟩ "x" 7 false fakeWorld).k
      ⟨false⟩ "x" 8 false
      (Find namesOnlyEnv NewKeyFinder ⟨false⟩ "x" 7 false fakeWorld).w).res =
      (Find namesOnlyEnv NewKeyFinder ⟨false⟩ "x" 7 false fakeWorld).res :=
  ⟨by decide, by decide, rfl, rfl, rfl⟩

/-- C9, amended: when the `String` rendering of the two membership types holds no
separator, two cache keys are equal exactly when the names, the renderings of the types
and the flags are equal, also for names that contain the separator; so the key is
injective in the name and the flag, and in the membership type wherever the rendering
tells the types apart; and a store made under one key is never read back under a triple
that differs in the name, the rendering of the type or the flag. -/
theorem cacheKey_injective_up_to_rendering {W Team : Type} (env : Env W Team)
    (n1 n2 : String) (t1 t2 : ConversationMembersType) (p1 p2 : Bool)
    (h1 : '|' ∉ (env.membersTypeString t1).data)
    (h2 : '|' ∉ (env.membersTypeString t2).data) :
    (cacheKey env n1 t1 p1 = cacheKey env n2 t2 p2 ↔
      n1 = n2 ∧ env.membersTypeString t1 = env.membersTypeString t2 ∧ p1 = p2) ∧
    ((env.membersTypeString t1 = env.membersTypeString t2 → t1 = t2) →
      (cacheKey env n1 t1 p1 = cacheKey env n2 t2 p2 ↔ (n1, t1, p1) = (n2, t2, p2))) ∧
    ((n1 ≠ n2 ∨ env.membersTypeString t1 ≠ env.membersTypeString t2 ∨ p1 ≠ p2) →
      ∀ (k : KeyFinderImpl) (nameInfo : NameInfoPtr),
        (storeKey k (cacheKey env n1 t1 p1) nameInfo).keys (cacheKey env n2 t2 p2) =
          k.keys (cacheKey env n2 t2 p2)) := by
  have hiff := cacheKey_eq_iff env n1 n2 t1 t2 p1 p2 h1 h2
  refine ⟨hiff, fun hinj => ?_, fun hne k nameInfo => storeKey_other k _ _ nameInfo ?_⟩
  · rw [hiff]
    constructor
    · rintro ⟨hn, ht, hp⟩
      rw [hn, hinj ht, hp]
    · intro h
      simp only [Prod.mk.injEq] at h
      exact ⟨h.1, by rw [h.2.1], h.2.2⟩
  · intro heq
    obtain ⟨hn, ht, hp⟩ := hiff.mp heq.symm
    rcases hne with h | h | h
    · exact h hn
    · exact h ht
    · exact h hp

/-- C9, amended, at a name that contains the separator: the keys of
`("a|TEAM", KBFS, false)` and `("a", TEAM, false)` differ in the fake environment. -/
theorem cacheKey_injective_up_to_rendering_witness :
    '|' ∉ (fakeEnv.membersTypeString ConversationMembersType_KBFS).data ∧
    '|' ∉ (fakeEnv.membersTypeString ConversationMembersType_TEAM).data ∧
    (cacheKey fakeEnv "a|TEAM" ConversationMembersType_KBFS false =
        cacheKey fakeEnv "a" ConversationMembersType_TEAM false ↔
      (("a|TEAM", ConversationMembersType_KBFS, false) : String × Int × Bool) =
        ("a", ConversationMembersType_TEAM, false)) :=
  ⟨by decide, by decide,
    (cacheKey_injective_up_to_rendering fakeEnv "a|TEAM" "a" ConversationMembersType_KBFS
      ConversationMembersType_TEAM false false (by decide) (by decide)).2.1
      (fun h => absurd h (by decide))⟩

/-- C10: `createNameInfoSource` is total.  Without an override the legacy type maps to the
KBFS source, the three team-family types map to three pairwise distinct sources (teams,
implicit teams with flag false, implicit teams with flag true) and every unrecognized
type maps to the KBFS source; with an override installed the override is returned for
every type. -/
theorem createNameInfoSource_dispatch (keys : String → Option NameInfoPtr)
    (override : NameInfoSource) (membersType : ConversationMembersType)
    (hunknown : membersType ≠ ConversationMembersType_KBFS ∧
      membersType ≠ ConversationMembersType_TEAM ∧
      membersType ≠ ConversationMembersType_IMPTEAMNATIVE ∧
      membersType ≠ ConversationMembersType_IMPTEAMUPGRADE) :
    createNameInfoSource ⟨keys, none⟩ ConversationMembersType_KBFS =
      NameInfoSource.NewKBFSNameInfoSource ∧
    createNameInfoSource ⟨keys, none⟩ ConversationMembersType_TEAM =
      NameInfoSource.NewTeamsNameInfoSource ∧
    createNameInfoSource ⟨keys, none⟩ ConversationMembersType_IMPTEAMNATIVE =
      NameInfoSource.NewImplicitTeamsNameInfoSource false ∧
    createNameInfoSource ⟨keys, none⟩ ConversationMembersType_IMPTEAMUPGRADE =
      NameInfoSource.NewImplicitTeamsNameInfoSource true ∧
    createNameInfoSource ⟨keys, none⟩ ConversationMembersType_TEAM ≠
      createNameInfoSource ⟨keys, none⟩ ConversationMembersType_IMPTEAMNATIVE ∧
    createNameInfoSource ⟨keys, none⟩ ConversationMembersType_TEAM ≠
      createNameInfoSource ⟨keys, none⟩ ConversationMembersType_IMPTEAMUPGRADE ∧
    createNameInfoSource ⟨keys, none⟩ ConversationMembersType_IMPTEAMNATIVE ≠
      createNameInfoSource ⟨keys, none⟩ ConversationMembersType_IMPTEAMUPGRADE ∧
    createNameInfoSource ⟨keys, none⟩ membersType = NameInfoSource.NewKBFSNameInfoSource ∧
    (∀ t : ConversationMembersType, createNameInfoSource ⟨keys, some override⟩ t = override) := by
  obtain ⟨h0, h1, h2, h3⟩ := hunknown
  have d1 : NameInfoSource.NewTeamsNameInfoSource ≠
      NameInfoSource.NewImplicitTeamsNameInfoSource false := by decide
  have d2 : NameInfoSource.NewTeamsNameInfoSource ≠
      NameInfoSource.NewImplicitTeamsNameInfoSource true := by decide
  have d3 : NameInfoSource.NewImplicitTeamsNameInfoSource false ≠
      NameInfoSource.NewImplicitTeamsNameInfoSource true := by decide
  refine ⟨rfl, rfl, rfl, rfl, d1, d2, d3, ?_, fun t => rfl⟩
  simp [createNameInfoSource, h0, h1, h2, h3]

/-- C10 at the unrecognized membership type 7 and the override `other 0`. -/
theorem createNameInfoSource_dispatch_witness :
    createNameInfoSource NewKeyFinder 7 = NameInfoSource.NewKBFSNameInfoSource ∧
    (∀ t : ConversationMembersType,
      createNameInfoSource ⟨NewKeyFinder.keys, some (NameInfoSource.other 0)⟩ t =
        NameInfoSource.other 0) :=
  have h := createNameInfoSource_dispatch NewKeyFinder.keys (NameInfoSource.other 0) 7
    (by decide)
  ⟨h.2.2.2.2.2.2.2.1, h.2.2.2.2.2.2.2.2⟩

end KeyFinder
